import Mathlib

/-!
Shallow embedding of the LinkedIn scraper backend (src/linkedinScraperService.js)
and proofs about its specification claims.

The repository's service file contains several evolving snapshots of the same
module.  Definitions below are translated from the snapshot containing the cited
lines of each claim; the final snapshot (the last one in the file) is the
canonical extractor / orchestrator, and the middle snapshot is the one with the
consecutive-error budget and the stopped/blocked abort logic.
-/

namespace Scraper

/-- Fuel-driven worker for `jsSplit`.  Scans the input left to right; whenever
the (non-empty) separator is a prefix of the remaining input, the chunk read so
far is emitted and the separator consumed.  The fuel is only a termination
device: with `fuel ≥ length + 1` it never runs out, since every step consumes
at least one input character. -/
def jsSplitFuel (sep : List Char) : Nat → List Char → List Char → List (List Char)
  | 0, l, cur => [cur.reverse ++ l]
  | fuel + 1, l, cur =>
    match l with
    | [] => [cur.reverse]
    | c :: rest =>
      if sep.isPrefixOf (c :: rest) && sep.length != 0 then
        cur.reverse :: jsSplitFuel sep fuel ((c :: rest).drop sep.length) []
      else
        jsSplitFuel sep fuel rest (c :: cur)

/-- JavaScript's `String.prototype.split(sep)` for a non-empty string separator:
the list of chunks between non-overlapping occurrences of `sep`, scanned left to
right (adjacent or boundary occurrences yield empty chunks, as in JS). -/
def jsSplit (s sep : String) : List String :=
  (jsSplitFuel sep.toList (s.toList.length + 1) s.toList []).map List.asString

/-- JavaScript's `String.prototype.includes`: `s.includes(sub)` is true iff `sub`
occurs as a substring of `s`, i.e. splitting on `sub` yields more than one piece. -/
def jsIncludes (s sub : String) : Bool :=
  (jsSplit s sub).length != 1

/-- The whitespace class of JavaScript's `\s` and `trim()`, restricted to the
characters that can actually occur here (ASCII whitespace and no-break space). -/
def isJsWs (c : Char) : Bool :=
  c == ' ' || c == '\t' || c == '\n' || c == '\r' ||
    c == '\x0b' || c == '\x0c' || c == '\u00A0'

/-- JavaScript's `String.prototype.trim()`: strip leading and trailing
whitespace. -/
def jsTrim (s : String) : String :=
  (((s.toList.dropWhile isJsWs).reverse.dropWhile isJsWs).reverse).asString

/-- JavaScript's `Array.prototype.join(sep)` on an array of strings. -/
def jsJoin (sep : String) : List String → String
  | [] => ""
  | [x] => x
  | x :: y :: xs => x ++ sep ++ jsJoin sep (y :: xs)

/-- Embeds `calculateTotalProfilesToExtract` (linkedinScraperService.js, canonical
snapshot): `Math.min(totalAvailable, maxPages * resultsPerPage, 1000)`. -/
def calculateTotalProfilesToExtract (totalAvailable maxPages resultsPerPage : Nat) : Nat :=
  min totalAvailable (min (maxPages * resultsPerPage) 1000)

/-- Embeds the `totalResults` field reported by `getTotalSearchResultsInfo`.  The DOM walk
produces a parse outcome: `none` when the `page.evaluate` probe itself failed
(the `catch` branch returns `totalResults: 10`), `some t` when the probe ran and
parsed the number `t` (with `t = 0` when no result-count text matched, since the
`totalResults` variable stays at its initial `0`).  The reported value is
`totalResults || 10`, i.e. 10 whenever the parsed value is 0 (falsy). -/
def probeTotal (parsed : Option Nat) : Nat :=
  match parsed with
  | none => 10
  | some t => if t = 0 then 10 else t

/-- A record emitted by the extractor (canonical snapshot's `profiles.push`). -/
structure Profile where
  name : String
  title : String
  location : String
  profileUrl : String
  linkedinId : String
  connectionDegree : String
  isAnonymous : Bool
deriving DecidableEq, Repr

/-- The field values resolved for one candidate result container, before the
emission decision (canonical snapshot, `Array.from(results).forEach` body). -/
structure ResolvedFields where
  name : String
  title : String
  location : String
  profileUrl : String
  connectionDegree : String
deriving DecidableEq, Repr

/-- Embeds the `linkedinId` derivation (canonical snapshot):
`profileUrl.includes('/in/') ? profileUrl.split('/in/')[1]?.split('/')[0] || '' : 'headless'`. -/
def deriveLinkedinId (profileUrl : String) : String :=
  if jsIncludes profileUrl "/in/" then
    ((jsSplit ((jsSplit profileUrl "/in/").getD 1 "") "/").headD "")
  else "headless"

/-- The per-container emission step of the canonical extractor: given the
resolved fields, push a record iff `title || location || profileUrl` is truthy
(for strings: non-empty).  Field defaults follow the source's `||` fallbacks. -/
def mkProfile? (f : ResolvedFields) : Option Profile :=
  let isAnonymous := f.name == "LinkedIn Member"
  let linkedinId := deriveLinkedinId f.profileUrl
  if f.title != "" || f.location != "" || f.profileUrl != "" then
    some {
      name := if f.name == "" then "LinkedIn Member" else f.name
      title := if f.title == "" then "No title listed" else f.title
      location := if f.location == "" then "No location listed" else f.location
      profileUrl := f.profileUrl
      linkedinId := linkedinId
      connectionDegree := f.connectionDegree
      isAnonymous := isAnonymous }
  else none

/-- The canonical extractor's record pass over all candidate containers. -/
def extractRecords (containers : List ResolvedFields) : List Profile :=
  containers.filterMap mkProfile?

/-- Embeds the `setCookies` cookie-string parsing: split on `;`, skip blank parts, split
each part on `=` into a name and a value (the value re-joined with `=`), keep
the pair only when both are non-empty. -/
def parseCookies (s : String) : List (String × String) :=
  (jsSplit s ";").filterMap fun part =>
    let t := jsTrim part
    if t == "" then none
    else
      let segs := jsSplit t "="
      let name := segs.headD ""
      let value := jsJoin "=" segs.tail
      if name != "" && value != "" then some (name, value) else none

/-- Embeds the `setCookies` authentication check: `cookies.some(c => c.name === 'li_at')`. -/
def hasLiAt (s : String) : Bool :=
  (parseCookies s).any (·.1 == "li_at")

/-- Outcome of `setCookies`: throws the missing-token error when no `li_at`
cookie was parsed, succeeds otherwise.  (`page.setCookie` performs no
navigation.) -/
def setCookiesResult (s : String) : Except String Unit :=
  if hasLiAt s then Except.ok ()
  else Except.error "Missing required LinkedIn authentication cookie (li_at)"

/-- Number of `page.goto` navigations issued by `searchLinkedInPeople` before a
`setCookies` failure surfaces: `setCookies` is called before `validateSession`,
and the first `page.goto` (to the LinkedIn feed) lives inside
`getCurrentUserInfo`, which is reached only when `setCookies` succeeded.  So a
missing-token failure is raised after zero navigations; on success the feed
navigation is the first one issued. -/
def navigationsBeforeAuthFailure (s : String) : Nat :=
  match setCookiesResult s with
  | Except.error _ => 0
  | Except.ok _ => 1

/-- Embeds `text.replace(/\s+/g, ' ')`: every maximal run of whitespace becomes a
single space.  The boolean argument records whether the previous character was
part of a whitespace run (so the run's single `' '` is emitted only once). -/
def collapseWsAux : Bool → List Char → List Char
  | _, [] => []
  | prevWs, c :: cs =>
    if isJsWs c then
      if prevWs then collapseWsAux true cs
      else ' ' :: collapseWsAux true cs
    else c :: collapseWsAux false cs

/-- Drop the trailing whitespace run of a character list (the `\s+$` half of
`replace(/^\s+|\s+$/g, '')`, and the trailing half of `trim()`). -/
def dropTrailingWs : List Char → List Char
  | [] => []
  | c :: cs =>
    match dropTrailingWs cs with
    | [] => if isJsWs c then [] else [c]
    | d :: ds => c :: d :: ds

/-- Embeds `text.replace(/^\s+|\s+$/g, '')` (also the semantics of `trim()`): drop the
leading and the trailing whitespace run. -/
def stripWsL (l : List Char) : List Char :=
  dropTrailingWs (l.dropWhile isJsWs)

/-- Embeds `text.replace(/a/g, b)` for single characters `a`, `b`. -/
def replChar (a b : Char) (l : List Char) : List Char :=
  l.map fun c => if c == a then b else c

/-- Scanner state for `replace(/\s{2,}/g, ' ')`: no pending whitespace, exactly
one pending whitespace character (kept verbatim if the run ends there), or a
pending run of two or more (replaced by a single space). -/
inductive Pend where
  | zero
  | one (c : Char)
  | many
deriving DecidableEq, Repr

/-- Embeds `text.replace(/\s{2,}/g, ' ')`: each maximal whitespace run of length at
least two becomes a single space; an isolated whitespace character is kept. -/
def collapseTwoAux : Pend → List Char → List Char
  | Pend.zero, [] => []
  | Pend.one w, [] => [w]
  | Pend.many, [] => [' ']
  | Pend.zero, c :: cs =>
    if isJsWs c then collapseTwoAux (Pend.one c) cs
    else c :: collapseTwoAux Pend.zero cs
  | Pend.one w, c :: cs =>
    if isJsWs c then collapseTwoAux Pend.many cs
    else w :: c :: collapseTwoAux Pend.zero cs
  | Pend.many, c :: cs =>
    if isJsWs c then collapseTwoAux Pend.many cs
    else ' ' :: c :: collapseTwoAux Pend.zero cs

/-- Embeds the `cleanText` chain of replacements, on character lists, in source order:
`\s+`→`' '`, strip ends, `\n`→`' '`, `\t`→`' '`, `\s{2,}`→`' '`, `trim()`. -/
def cleanTextL (l : List Char) : List Char :=
  stripWsL (collapseTwoAux Pend.zero
    (replChar '\t' ' ' (replChar '\n' ' ' (stripWsL (collapseWsAux false l)))))

/-- Embeds `cleanText` (linkedinScraperService.js): `if (!text) return ''` followed by
the replacement chain. -/
def cleanText (s : String) : String :=
  if s == "" then "" else (cleanTextL s.toList).asString

/-- Every whitespace character of the list is a plain space. -/
def allWsSpaceB (l : List Char) : Bool :=
  l.all fun c => !isJsWs c || c == ' '

/-- No two adjacent characters of the list are both whitespace. -/
def noAdjWsB : List Char → Bool
  | [] => true
  | [_] => true
  | a :: b :: rest => (!(isJsWs a && isJsWs b)) && noAdjWsB (b :: rest)

/-- The first character, if any, is not whitespace. -/
def headNotWsB : List Char → Bool
  | [] => true
  | c :: _ => !isJsWs c

/-- The last character, if any, is not whitespace. -/
def lastNotWsB : List Char → Bool
  | [] => true
  | [c] => !isJsWs c
  | _ :: c :: cs => lastNotWsB (c :: cs)

/-- Events observable on the crawl's emitter, restricted to the fields the
claims are about.  `stopped`/`blocked` carry the `lastSuccessfulPage` field that
the budget snapshot puts on those events; `done` carries `resultsCount` and the
ordered accumulated record list. -/
inductive CrawlEvent where
  | navigating (page : Nat)
  | pageLoaded (page : Nat)
  | extracting (page : Nat)
  | profileStream (p : Profile) (progressPct profilesScraped totalProfiles : Nat)
  | extracted (page count totalSoFar : Nat)
  | noMoreResults (page : Nat)
  | errorPage (page : Nat)
  | stopped (lastSuccessfulPage : Nat)
  | blocked (lastSuccessfulPage : Nat)
  | abortError (page : Nat)
  | done (resultsCount : Nat) (results : List Profile)
deriving DecidableEq, Repr

/-- The per-profile streaming pass of `extractProfileData`: for the `i`-th
extracted profile of `currentPage`, `profilesScraped = (currentPage-1) *
resultsPerPage + (i+1)` (with `resultsPerPage = 10`), `totalProfiles =
calculateTotalProfilesToExtract(totalResultsInfo.totalResults, maxPages, 10)`
recomputed from this page's probe, and `progress = Math.min(100,
Math.floor(100 * profilesScraped / totalProfiles))`. -/
def profileEvents (currentPage maxPages : Nat) (probe : Option Nat)
    (profiles : List Profile) : List CrawlEvent :=
  profiles.enum.map fun ip =>
    let scraped := (currentPage - 1) * 10 + (ip.1 + 1)
    let total := calculateTotalProfilesToExtract (probeTotal probe) maxPages 10
    CrawlEvent.profileStream ip.2 (min 100 (100 * scraped / total)) scraped total

/-- What the environment presents for one page of the budget snapshot's
`performPeopleSearch` loop.  Failure constructors stand for the `throw` sites
inside the per-page `try`; `loaded` means the page loaded and extraction ran,
yielding this page's result-count parse outcome and extracted profiles. -/
inductive PageOutcome where
  | expired
  | captcha
  | rateLimit
  | maintenance
  | navExhausted
  | otherError
  | loaded (probe : Option Nat) (profiles : List Profile)
deriving DecidableEq, Repr

/-- The catch block's immediate-abort test,
`error.message.includes('CAPTCHA') || error.message.includes('security verification') ||
error.message.includes('rate limiting') || error.message.includes('session expired')`,
evaluated (case-sensitively, as in JS) against the message each outcome throws:
`expired` throws `'LinkedIn session expired. Please provide new cookies.'`
(contains `'session expired'`); `captcha` throws `'CAPTCHA or security
verification detected. ...'` (contains `'CAPTCHA'`); `rateLimit` throws `'Rate
limiting detected. ...'`, which does NOT contain the lowercase `'rate
limiting'`; `maintenance` throws `'LinkedIn reports maintenance or temporary
unavailability.'`; `navExhausted` throws `'Failed to navigate to page N after
3 attempts'`; none of the last three contains any of the four patterns. -/
def blockingMsg : PageOutcome → Bool
  | PageOutcome.expired => true
  | PageOutcome.captcha => true
  | _ => false

/-- The budget snapshot's `performPeopleSearch` page loop (the middle snapshot,
with `consecutiveErrorCount`, `MAX_CONSECUTIVE_ERRORS = 3` and
`lastSuccessfulPageNumber`).  Arguments: remaining page outcomes, current page
number, consecutive error count, last successful page, accumulated results.
Returns the emitted events (cookie-refresh and retry progress events, which no
claim mentions, are elided) and the final consecutive error count. -/
def budgetLoop (maxPages : Nat) :
    List PageOutcome → Nat → Nat → Nat → List Profile → List CrawlEvent × Nat
  | [], _page, cnt, _lastOk, acc => ([CrawlEvent.done acc.length acc], cnt)
  | o :: rest, page, cnt, lastOk, acc =>
    match o with
    | PageOutcome.loaded probe profiles =>
      let evs := [CrawlEvent.navigating page, CrawlEvent.pageLoaded page,
        CrawlEvent.extracting page] ++ profileEvents page maxPages probe profiles
      if profiles.isEmpty then
        (evs ++ [CrawlEvent.noMoreResults page, CrawlEvent.done acc.length acc], 0)
      else
        let acc' := acc ++ profiles
        let nxt := budgetLoop maxPages rest (page + 1) 0 page acc'
        (evs ++ [CrawlEvent.extracted page profiles.length acc'.length] ++ nxt.1, nxt.2)
    | _ =>
      let cnt' := cnt + 1
      let evs := [CrawlEvent.navigating page, CrawlEvent.errorPage page]
      if 3 ≤ cnt' then
        (evs ++ [CrawlEvent.stopped lastOk, CrawlEvent.done acc.length acc], cnt')
      else if blockingMsg o then
        (evs ++ [CrawlEvent.blocked lastOk, CrawlEvent.done acc.length acc], cnt')
      else if page = 1 then
        (evs ++ [CrawlEvent.done acc.length acc], cnt')
      else
        let nxt := budgetLoop maxPages rest (page + 1) cnt' lastOk acc
        (evs ++ nxt.1, nxt.2)

/-- What the environment presents for one page of the canonical (final)
snapshot's `performPeopleSearch` loop.  `noResultsEarly` is the
`pageState.hasNoResultsMessage` early exit inside the selector-wait catch. -/
inductive PageOutcome3 where
  | expired
  | blockedDetect
  | navFail
  | noResultsEarly
  | loaded (probe : Option Nat) (profiles : List Profile)
deriving DecidableEq, Repr

/-- The canonical snapshot's `performPeopleSearch` page loop: its catch block
treats every thrown error alike (`consecutiveErrors++`; at 3 it emits the
aborting error event and breaks, else a per-page error event; a failure on page
1 also breaks), and `consecutiveErrors` is reset only after a page contributed
records.  Returns the emitted events and the final consecutive error count. -/
def canonLoop (maxPages : Nat) :
    List PageOutcome3 → Nat → Nat → List Profile → List CrawlEvent × Nat
  | [], _page, cnt, acc => ([CrawlEvent.done acc.length acc], cnt)
  | o :: rest, page, cnt, acc =>
    match o with
    | PageOutcome3.loaded probe profiles =>
      let evs := [CrawlEvent.navigating page, CrawlEvent.pageLoaded page,
        CrawlEvent.extracting page] ++ profileEvents page maxPages probe profiles
      if profiles.isEmpty then
        (evs ++ [CrawlEvent.noMoreResults page, CrawlEvent.done acc.length acc], cnt)
      else
        let acc' := acc ++ profiles
        let nxt := canonLoop maxPages rest (page + 1) 0 acc'
        (evs ++ [CrawlEvent.extracted page profiles.length acc'.length] ++ nxt.1, nxt.2)
    | PageOutcome3.noResultsEarly =>
      ([CrawlEvent.navigating page, CrawlEvent.pageLoaded page,
        CrawlEvent.noMoreResults page, CrawlEvent.done acc.length acc], cnt)
    | _ =>
      let cnt' := cnt + 1
      if 3 ≤ cnt' then
        ([CrawlEvent.navigating page, CrawlEvent.abortError page,
          CrawlEvent.done acc.length acc], cnt')
      else if page = 1 then
        ([CrawlEvent.navigating page, CrawlEvent.errorPage page,
          CrawlEvent.done acc.length acc], cnt')
      else
        let nxt := canonLoop maxPages rest (page + 1) cnt' acc
        ([CrawlEvent.navigating page, CrawlEvent.errorPage page] ++ nxt.1, nxt.2)

/-- Package a probe outcome and an extracted-profile list as a successful page. -/
def mkLoaded (q : Option Nat × List Profile) : PageOutcome :=
  PageOutcome.loaded q.1 q.2

/-- The events the budget loop emits while processing a run of successful,
record-yielding pages starting at `page` with accumulated results `acc`. -/
def succEvents (maxPages : Nat) :
    Nat → List Profile → List (Option Nat × List Profile) → List CrawlEvent
  | _, _, [] => []
  | page, acc, q :: rest =>
    [CrawlEvent.navigating page, CrawlEvent.pageLoaded page, CrawlEvent.extracting page] ++
      profileEvents page maxPages q.1 q.2 ++
      [CrawlEvent.extracted page q.2.length (acc ++ q.2).length] ++
      succEvents maxPages (page + 1) (acc ++ q.2) rest

/-- A concrete extracted record, used by the closed counterexamples and
witnesses. -/
def sampleProfile : Profile :=
  { name := "Jane Doe", title := "Engineer", location := "Berlin"
    profileUrl := "https://www.linkedin.com/in/janedoe", linkedinId := "janedoe"
    connectionDegree := "2nd degree connection", isAnonymous := false }

/-- A second concrete extracted record. -/
def sampleProfile2 : Profile :=
  { name := "Raj Patel", title := "Designer", location := "Pune"
    profileUrl := "https://www.linkedin.com/in/rajpatel", linkedinId := "rajpatel"
    connectionDegree := "3rd degree connection", isAnonymous := false }

/-- Concrete script refuting C2 on the canonical loop: the first page's probe
parses 13,700,000 results, the second page's probe parses 20. -/
def recomputeScript : List PageOutcome3 :=
  [PageOutcome3.loaded (some 13700000) [sampleProfile],
   PageOutcome3.loaded (some 20) [sampleProfile2]]

/-- Concrete script refuting C6 on the budget loop: page 1 succeeds, pages 2
and 3 exhaust their navigation attempts, page 4 is classified session-expired
while the consecutive error count is already 2. -/
def expiredAtBudgetScript : List PageOutcome :=
  [PageOutcome.loaded (some 100) [sampleProfile],
   PageOutcome.navExhausted, PageOutcome.navExhausted, PageOutcome.expired]

end Scraper

namespace Scraper

/-- C1: the computed total equals the minimum of the three constraints. -/
theorem calculateTotal_eq_min (t m r : Nat) :
    calculateTotalProfilesToExtract t m r ≤ t ∧
    calculateTotalProfilesToExtract t m r ≤ m * r ∧
    calculateTotalProfilesToExtract t m r ≤ 1000 ∧
    (calculateTotalProfilesToExtract t m r = t ∨
     calculateTotalProfilesToExtract t m r = m * r ∨
     calculateTotalProfilesToExtract t m r = 1000) ∧
    calculateTotalProfilesToExtract 13700000 5 10 = 50 := by
  refine ⟨?_, ?_, ?_, ?_, by decide⟩
  · exact min_le_left _ _
  · exact le_trans (min_le_right _ _) (min_le_left _ _)
  · exact le_trans (min_le_right _ _) (min_le_right _ _)
  · rcases le_total t (min (m * r) 1000) with h | h
    · left
      simpa [calculateTotalProfilesToExtract] using min_eq_left h
    · have hmin : calculateTotalProfilesToExtract t m r = min (m * r) 1000 := by
        simpa [calculateTotalProfilesToExtract] using min_eq_right h
      rcases le_total (m * r) 1000 with h2 | h2
      · right; left
        rw [hmin, min_eq_left h2]
      · right; right
        rw [hmin, min_eq_right h2]

/-- C3: the canonical extractor emits a record for a container exactly when at
least one of title, location and profile URL resolved to a non-empty value; in
particular a container whose only resolved field is a name is never emitted. -/
theorem emit_iff_title_location_url (f : ResolvedFields) :
    (mkProfile? f).isSome = (f.title != "" || f.location != "" || f.profileUrl != "") ∧
    mkProfile? { name := "Jane Doe", title := "", location := "", profileUrl := "",
                 connectionDegree := "" } = none := by
  constructor
  · unfold mkProfile?
    by_cases h : (f.title != "" || f.location != "" || f.profileUrl != "") = true
    · simp [h]
    · simp only [Bool.not_eq_true] at h
      simp [h]
  · rfl

/-- C4: a credential string from which no `li_at` cookie is parsed makes
`setCookies` fail with the missing-token error, before any page navigation. -/
theorem missing_liat_fails_before_navigation (s : String) (h : hasLiAt s = false) :
    setCookiesResult s =
      Except.error "Missing required LinkedIn authentication cookie (li_at)" ∧
    navigationsBeforeAuthFailure s = 0 := by
  have hres : setCookiesResult s =
      Except.error "Missing required LinkedIn authentication cookie (li_at)" := by
    simp [setCookiesResult, h]
  exact ⟨hres, by simp [navigationsBeforeAuthFailure, hres]⟩

/-- Witness for C4 at the concrete credential string `"JSESSIONID=abc; bcookie=v2"`. -/
theorem missing_liat_fails_before_navigation_witness :
    setCookiesResult "JSESSIONID=abc; bcookie=v2" =
      Except.error "Missing required LinkedIn authentication cookie (li_at)" ∧
    navigationsBeforeAuthFailure "JSESSIONID=abc; bcookie=v2" = 0 :=
  missing_liat_fails_before_navigation "JSESSIONID=abc; bcookie=v2" (by decide)

/-- C7: the external id is a pure function of the profile URL (equal URLs give
equal ids), and every URL without the `/in/` path marker maps to the single
sentinel id `"headless"`. -/
theorem linkedinId_pure_and_sentinel (u v : String)
    (huv : u = v) (hno : jsIncludes u "/in/" = false) :
    deriveLinkedinId u = deriveLinkedinId v ∧ deriveLinkedinId u = "headless" := by
  subst huv
  exact ⟨rfl, by simp [deriveLinkedinId, hno]⟩

/-- Witness for C7 at the concrete URL `"https://www.linkedin.com/search/results/people/headless"`,
which does not contain `/in/`. -/
theorem linkedinId_pure_and_sentinel_witness :
    deriveLinkedinId "https://www.linkedin.com/search/results/people/headless" =
      deriveLinkedinId "https://www.linkedin.com/search/results/people/headless" ∧
    deriveLinkedinId "https://www.linkedin.com/search/results/people/headless" = "headless" :=
  linkedinId_pure_and_sentinel _ _ rfl (by decide)

/-- C10: the result-count probe never reports 0 — a failed probe or unparsable
count yields 10 — so with at least one page and one result per page the total
to extract is strictly positive and the progress division is never by zero. -/
theorem probe_never_zero (parsed : Option Nat) (maxPages resultsPerPage : Nat)
    (hm : 1 ≤ maxPages) (hr : 1 ≤ resultsPerPage) :
    probeTotal parsed ≠ 0 ∧
    probeTotal none = 10 ∧
    probeTotal (some 0) = 10 ∧
    0 < calculateTotalProfilesToExtract (probeTotal parsed) maxPages resultsPerPage := by
  have hpos : 0 < probeTotal parsed := by
    match parsed with
    | none => simp [probeTotal]
    | some t =>
      by_cases ht : t = 0
      · simp [probeTotal, ht]
      · simpa [probeTotal, ht] using Nat.pos_of_ne_zero ht
  refine ⟨Nat.pos_iff_ne_zero.mp hpos, rfl, rfl, ?_⟩
  have hmr : 0 < maxPages * resultsPerPage := Nat.mul_pos hm hr
  simp only [calculateTotalProfilesToExtract, lt_min_iff]
  exact ⟨hpos, hmr, by norm_num⟩

/-- Witness for C10 at `parsed = some 0`, `maxPages = 5`, `resultsPerPage = 10`. -/
theorem probe_never_zero_witness :
    probeTotal (some 0) ≠ 0 ∧
    probeTotal none = 10 ∧
    probeTotal (some 0) = 10 ∧
    0 < calculateTotalProfilesToExtract (probeTotal (some 0)) 5 10 :=
  probe_never_zero (some 0) 5 10 (by decide) (by decide)

/-- C8: a page whose extraction yields zero records makes the canonical loop
emit `no_more_results` for that page and terminate with the normal `done`
event carrying the accumulated records; no error-status event is emitted and
the consecutive error counter leaves the loop with its entering value. -/
theorem noResults_normal_termination (mp : Nat) (rest : List PageOutcome3)
    (page cnt : Nat) (acc : List Profile) (probe : Option Nat) :
    canonLoop mp (PageOutcome3.loaded probe [] :: rest) page cnt acc =
      ([CrawlEvent.navigating page, CrawlEvent.pageLoaded page, CrawlEvent.extracting page,
        CrawlEvent.noMoreResults page, CrawlEvent.done acc.length acc], cnt) := by
  simp [canonLoop, profileEvents]

/-- C6 (counterexample to the claim as stated): with the consecutive error
count already at 2 (page 1 succeeded, pages 2 and 3 failed transiently), a
session-expired classification on page 4 is counted against the budget — the
abort is reported with status `stopped` (carrying the last successful page, 1),
no `blocked` event is emitted, and no abort event carries the failing page 4. -/
theorem expired_consumes_budget_counterexample :
    CrawlEvent.stopped 1 ∈ (budgetLoop 5 expiredAtBudgetScript 1 0 0 []).1 ∧
    CrawlEvent.stopped 4 ∉ (budgetLoop 5 expiredAtBudgetScript 1 0 0 []).1 ∧
    (budgetLoop 5 expiredAtBudgetScript 1 0 0 []).1.all
      (fun e => match e with
        | CrawlEvent.blocked _ => false
        | _ => true) = true := by
  decide

/-- C6 (amended): a session-expired page attempt always aborts the budget
loop immediately, for any page index and prior error count, but the failure is
counted: the error count is incremented, the abort status is `stopped` when the
incremented count reaches the budget of 3 and `blocked` otherwise, and the
abort event carries the last successful page while only the preceding
`error`-status event carries the failing page. -/
theorem expired_aborts_immediately_counted (mp : Nat) (rest : List PageOutcome)
    (page cnt lastOk : Nat) (acc : List Profile) :
    budgetLoop mp (PageOutcome.expired :: rest) page cnt lastOk acc =
      ([CrawlEvent.navigating page, CrawlEvent.errorPage page] ++
        (if 3 ≤ cnt + 1 then [CrawlEvent.stopped lastOk] else [CrawlEvent.blocked lastOk]) ++
        [CrawlEvent.done acc.length acc], cnt + 1) := by
  by_cases h : 3 ≤ cnt + 1 <;> simp [budgetLoop, blockingMsg, h]

/-- C2 (counterexample to the claim as stated): on the canonical loop the
total-to-extract is recomputed from every page's own probe — with the first
page's probe parsing 13,700,000 results the page-1 record event carries
`totalProfiles = 50`, while with the second page's probe parsing 20 the page-2
record event carries `totalProfiles = 20`. -/
theorem totalToExtract_recomputed_counterexample :
    CrawlEvent.profileStream sampleProfile 2 1 50 ∈ (canonLoop 5 recomputeScript 1 0 []).1 ∧
    CrawlEvent.profileStream sampleProfile2 55 11 20 ∈ (canonLoop 5 recomputeScript 1 0 []).1 ∧
    (50 : Nat) ≠ 20 := by
  decide

/-- C2 (amended): the total-to-extract is recomputed on every page from that
page's own result-count probe; it is fixed within a single page, i.e. every
record event emitted for a page carries the total
`calculateTotalProfilesToExtract(probeTotal(probe), maxPages, 10)` computed
from that page's probe. -/
theorem totalToExtract_from_own_page_probe (mp page : Nat) (probe : Option Nat)
    (profiles : List Profile) (p : Profile) (pct scraped total : Nat)
    (h : CrawlEvent.profileStream p pct scraped total ∈ profileEvents page mp probe profiles) :
    total = calculateTotalProfilesToExtract (probeTotal probe) mp 10 := by
  simp only [profileEvents, List.mem_map] at h
  obtain ⟨ip, _, heq⟩ := h
  injection heq with h1 h2 h3 h4
  exact h4.symm

/-- Witness for the amended C2 at page 1 with probe outcome 13,700,000 and a
single extracted record. -/
theorem totalToExtract_from_own_page_probe_witness :
    (50 : Nat) = calculateTotalProfilesToExtract (probeTotal (some 13700000)) 5 10 :=
  totalToExtract_from_own_page_probe 5 1 (some 13700000) [sampleProfile]
    sampleProfile 2 1 50 (by decide)

/-- Processing a run of successful, record-yielding pages leaves the budget
loop at the page after the run, with the error count reset to 0, the last
successful page set to the run's last page, and the run's records appended to
the accumulator in page order. -/
theorem budgetLoop_success_run (mp : Nat) (succs : List (Option Nat × List Profile))
    (tail : List PageOutcome) (page cnt lastOk : Nat) (acc : List Profile) :
    (∀ q ∈ succs, q.2 ≠ []) →
    budgetLoop mp (succs.map mkLoaded ++ tail) page cnt lastOk acc =
      (succEvents mp page acc succs ++
        (budgetLoop mp tail (page + succs.length)
          (if succs.length = 0 then cnt else 0)
          (if succs.length = 0 then lastOk else page + succs.length - 1)
          (acc ++ (succs.map Prod.snd).flatten)).1,
       (budgetLoop mp tail (page + succs.length)
          (if succs.length = 0 then cnt else 0)
          (if succs.length = 0 then lastOk else page + succs.length - 1)
          (acc ++ (succs.map Prod.snd).flatten)).2) := by
  induction succs generalizing page cnt lastOk acc with
  | nil => intro _; simp [succEvents]
  | cons q ss ih =>
    intro h
    have hq : q.2 ≠ [] := h q (List.mem_cons_self q ss)
    have hss : ∀ r ∈ ss, r.2 ≠ [] := fun r hr => h r (List.mem_cons_of_mem _ hr)
    have hempty : q.2.isEmpty = false := by
      cases hq2 : q.2 with
      | nil => exact absurd hq2 hq
      | cons a as => rfl
    have hne : ss.length + 1 ≠ 0 := by omega
    have harg1 : page + 1 + ss.length = page + (ss.length + 1) := by omega
    have harg2 : (if ss.length = 0 then (0 : Nat) else 0) = 0 := by
      split <;> rfl
    have harg3 : (if ss.length = 0 then page else page + 1 + ss.length - 1) =
        page + (ss.length + 1) - 1 := by
      split <;> omega
    have harg4 : (if ss = [] then page else page + ss.length) = page + ss.length := by
      split
      · next hnil => subst hnil; rfl
      · rfl
    simp only [List.map_cons, List.cons_append, budgetLoop, mkLoaded, hempty,
      Bool.false_eq_true, if_false, List.append_eq]
    rw [ih _ _ _ _ hss]
    simp [hne, harg1, harg2, harg3, harg4, succEvents, List.append_assoc]

/-- A transiently failing page (navigation attempts exhausted) below the budget
and past page 1: the budget loop emits the per-page error event and moves on
with the error count incremented. -/
theorem budgetLoop_navExhausted_step (mp : Nat) (rest : List PageOutcome)
    (page cnt lastOk : Nat) (acc : List Profile) (hcnt : cnt + 1 < 3) (hpage : page ≠ 1) :
    budgetLoop mp (PageOutcome.navExhausted :: rest) page cnt lastOk acc =
      ([CrawlEvent.navigating page, CrawlEvent.errorPage page] ++
        (budgetLoop mp rest (page + 1) (cnt + 1) lastOk acc).1,
       (budgetLoop mp rest (page + 1) (cnt + 1) lastOk acc).2) := by
  have h3 : ¬ 3 ≤ cnt + 1 := by omega
  simp [budgetLoop, blockingMsg, h3, hpage]

/-- C5: after any non-empty run of successful pages, three consecutive
transient page failures exhaust the budget: the loop emits a `stopped` event
and terminates, and the terminal `done` event carries exactly the records of
the prior successful pages, in page order then in-page order. -/
theorem three_transient_failures_stop (mp : Nat)
    (succs : List (Option Nat × List Profile)) (rest : List PageOutcome)
    (hne : succs ≠ []) (h : ∀ q ∈ succs, q.2 ≠ []) :
    ∃ pre,
      budgetLoop mp (succs.map mkLoaded ++
          (PageOutcome.navExhausted :: PageOutcome.navExhausted ::
            PageOutcome.navExhausted :: rest)) 1 0 0 [] =
        (pre ++ [CrawlEvent.stopped succs.length,
          CrawlEvent.done ((succs.map Prod.snd).flatten).length
            ((succs.map Prod.snd).flatten)], 3) := by
  have hn : succs.length ≠ 0 := fun h0 => hne (List.length_eq_zero.mp h0)
  have hlast : 1 + succs.length - 1 = succs.length := by omega
  have hp1 : ¬ (1 + succs.length = 1) := by omega
  have hp2 : ¬ (1 + succs.length + 1 = 1) := by omega
  refine ⟨succEvents mp 1 [] succs ++
    [CrawlEvent.navigating (1 + succs.length), CrawlEvent.errorPage (1 + succs.length),
     CrawlEvent.navigating (1 + succs.length + 1), CrawlEvent.errorPage (1 + succs.length + 1),
     CrawlEvent.navigating (1 + succs.length + 1 + 1),
     CrawlEvent.errorPage (1 + succs.length + 1 + 1)], ?_⟩
  rw [budgetLoop_success_run mp succs _ 1 0 0 [] h]
  rw [if_neg hn, if_neg hn, hlast]
  simp [budgetLoop, blockingMsg, hp1, hp2, List.append_assoc]

/-- Witness for C5: one successful page yielding one record, then three
transient failures; the crawl stops with the single record delivered. -/
theorem three_transient_failures_stop_witness :
    ∃ pre,
      budgetLoop 10 ([((some 100 : Option Nat), [sampleProfile])].map mkLoaded ++
          (PageOutcome.navExhausted :: PageOutcome.navExhausted ::
            PageOutcome.navExhausted :: [])) 1 0 0 [] =
        (pre ++ [CrawlEvent.stopped 1, CrawlEvent.done 1 [sampleProfile]], 3) := by
  have := three_transient_failures_stop 10 [((some 100 : Option Nat), [sampleProfile])] []
    (by decide) (by decide)
  simpa using this

/-- Dropping the head preserves the no-adjacent-whitespace property. -/
theorem noAdjWsB_tail {a : Char} {l : List Char} (h : noAdjWsB (a :: l) = true) :
    noAdjWsB l = true := by
  cases l with
  | nil => rfl
  | cons b bs =>
    simp only [noAdjWsB, Bool.and_eq_true] at h
    exact h.2

/-- Consing a non-whitespace character preserves no-adjacent-whitespace. -/
theorem noAdjWsB_cons_of_not_ws {a : Char} (ha : isJsWs a = false) {l : List Char}
    (h : noAdjWsB l = true) : noAdjWsB (a :: l) = true := by
  cases l with
  | nil => rfl
  | cons b bs => simp [noAdjWsB, ha, h]

/-- Consing anything onto a list whose head is not whitespace preserves
no-adjacent-whitespace. -/
theorem noAdjWsB_cons_of_headNot {a : Char} {l : List Char}
    (hh : headNotWsB l = true) (h : noAdjWsB l = true) : noAdjWsB (a :: l) = true := by
  cases l with
  | nil => rfl
  | cons b bs =>
    have hb : isJsWs b = false := by
      simpa [headNotWsB] using hh
    simp [noAdjWsB, hb, h]

/-- After a whitespace head, no-adjacent-whitespace forces the next character
(if any) to be non-whitespace. -/
theorem headNotWs_of_ws_adj {a : Char} {l : List Char} (ha : isJsWs a = true)
    (h : noAdjWsB (a :: l) = true) : headNotWsB l = true := by
  cases l with
  | nil => rfl
  | cons b bs =>
    simp only [noAdjWsB, ha, Bool.true_and, Bool.and_eq_true, Bool.not_eq_true'] at h
    simp [headNotWsB, h.1]

/-- Every whitespace character the whitespace-run collapse emits is a plain
space. -/
theorem collapseWsAux_allWsSpace (l : List Char) :
    ∀ prev, allWsSpaceB (collapseWsAux prev l) = true := by
  induction l with
  | nil => intro prev; rfl
  | cons c cs ih =>
    intro prev
    by_cases hc : isJsWs c = true
    · cases prev with
      | true => simpa [collapseWsAux, hc] using ih true
      | false =>
        simp only [collapseWsAux, hc, if_true]
        simpa [allWsSpaceB] using ih true
    · have hc' : isJsWs c = false := by simpa using hc
      simp only [collapseWsAux, hc', Bool.false_eq_true, if_false]
      have := ih false
      simp [allWsSpaceB, hc'] at this ⊢
      exact this

/-- The whitespace-run collapse never emits two adjacent whitespace
characters, and after seeing whitespace its next emitted character is not
whitespace. -/
theorem collapseWsAux_noAdj (l : List Char) :
    noAdjWsB (collapseWsAux false l) = true ∧
    noAdjWsB (collapseWsAux true l) = true ∧
    headNotWsB (collapseWsAux true l) = true := by
  induction l with
  | nil => exact ⟨rfl, rfl, rfl⟩
  | cons c cs ih =>
    obtain ⟨ih1, ih2, ih3⟩ := ih
    by_cases hc : isJsWs c = true
    · refine ⟨?_, ?_, ?_⟩
      · simp only [collapseWsAux, hc, if_true]
        exact noAdjWsB_cons_of_headNot ih3 ih2
      · simp only [collapseWsAux, hc, if_true]
        exact ih2
      · simp only [collapseWsAux, hc, if_true]
        exact ih3
    · have hc' : isJsWs c = false := by simpa using hc
      refine ⟨?_, ?_, ?_⟩
      · simp only [collapseWsAux, hc', Bool.false_eq_true, if_false]
        exact noAdjWsB_cons_of_not_ws hc' ih1
      · simp only [collapseWsAux, hc', Bool.false_eq_true, if_false]
        exact noAdjWsB_cons_of_not_ws hc' ih1
      · simp [collapseWsAux, hc', headNotWsB]

/-- Lemma: `dropWhile` preserves any `all` property. -/
theorem all_dropWhile {p q : Char → Bool} (l : List Char) (h : l.all q = true) :
    (l.dropWhile p).all q = true := by
  induction l with
  | nil => rfl
  | cons c cs ih =>
    simp only [List.all_cons, Bool.and_eq_true] at h
    by_cases hc : p c = true
    · simp only [List.dropWhile_cons, hc, if_true]
      exact ih h.2
    · have hc' : p c = false := by simpa using hc
      simp [List.dropWhile_cons, hc', List.all_cons, h.1, h.2]

/-- Lemma: `dropWhile isJsWs` preserves no-adjacent-whitespace. -/
theorem noAdjWsB_dropWhile (l : List Char) (h : noAdjWsB l = true) :
    noAdjWsB (l.dropWhile isJsWs) = true := by
  induction l with
  | nil => rfl
  | cons c cs ih =>
    by_cases hc : isJsWs c = true
    · simp only [List.dropWhile_cons, hc, if_true]
      exact ih (noAdjWsB_tail h)
    · have hc' : isJsWs c = false := by simpa using hc
      simpa [List.dropWhile_cons, hc'] using h

/-- The head surviving `dropWhile isJsWs` is not whitespace. -/
theorem headNotWsB_dropWhile (l : List Char) :
    headNotWsB (l.dropWhile isJsWs) = true := by
  induction l with
  | nil => rfl
  | cons c cs ih =>
    by_cases hc : isJsWs c = true
    · simpa [List.dropWhile_cons, hc] using ih
    · have hc' : isJsWs c = false := by simpa using hc
      simp [List.dropWhile_cons, hc', headNotWsB]

/-- Lemma: `dropTrailingWs` on a non-empty list is empty or keeps the original head. -/
theorem dropTrailingWs_shape (c : Char) (cs : List Char) :
    dropTrailingWs (c :: cs) = [] ∨ ∃ t, dropTrailingWs (c :: cs) = c :: t := by
  cases hd : dropTrailingWs cs with
  | nil =>
    by_cases hc : isJsWs c = true
    · left; simp [dropTrailingWs, hd, hc]
    · have hc' : isJsWs c = false := by simpa using hc
      right; exact ⟨[], by simp [dropTrailingWs, hd, hc']⟩
  | cons d ds => right; exact ⟨d :: ds, by simp [dropTrailingWs, hd]⟩

/-- Lemma: `dropTrailingWs` preserves the all-whitespace-is-space property. -/
theorem allWsSpaceB_dropTrailing (l : List Char) (h : allWsSpaceB l = true) :
    allWsSpaceB (dropTrailingWs l) = true := by
  induction l with
  | nil => rfl
  | cons c cs ih =>
    simp only [allWsSpaceB, List.all_cons, Bool.and_eq_true] at h
    have ihcs := ih h.2
    cases hd : dropTrailingWs cs with
    | nil =>
      by_cases hc : isJsWs c = true
      · simp [dropTrailingWs, hd, hc, allWsSpaceB]
      · have hc' : isJsWs c = false := by simpa using hc
        simp [dropTrailingWs, hd, hc', allWsSpaceB, h.1]
    | cons d ds =>
      rw [hd] at ihcs
      simp only [dropTrailingWs, hd]
      simp only [allWsSpaceB, List.all_cons, Bool.and_eq_true] at ihcs ⊢
      exact ⟨h.1, ihcs⟩

/-- Lemma: `dropTrailingWs` preserves no-adjacent-whitespace. -/
theorem noAdjWsB_dropTrailing (l : List Char) (h : noAdjWsB l = true) :
    noAdjWsB (dropTrailingWs l) = true := by
  induction l with
  | nil => rfl
  | cons c cs ih =>
    have hcs := ih (noAdjWsB_tail h)
    cases hd : dropTrailingWs cs with
    | nil =>
      by_cases hc : isJsWs c = true
      · simp [dropTrailingWs, hd, hc, noAdjWsB]
      · have hc' : isJsWs c = false := by simpa using hc
        simp [dropTrailingWs, hd, hc', noAdjWsB]
    | cons d ds =>
      cases cs with
      | nil => simp [dropTrailingWs] at hd
      | cons e es =>
        rcases dropTrailingWs_shape e es with h0 | ⟨t, ht⟩
        · rw [h0] at hd; cases hd
        · rw [ht] at hcs
          have hpair : (!(isJsWs c && isJsWs e)) = true := by
            simp only [noAdjWsB, Bool.and_eq_true] at h
            exact h.1
          rw [dropTrailingWs, ht]
          show noAdjWsB (c :: e :: t) = true
          simp only [noAdjWsB, Bool.and_eq_true]
          exact ⟨hpair, hcs⟩

/-- Lemma: `dropTrailingWs` leaves no trailing whitespace. -/
theorem lastNotWsB_dropTrailing (l : List Char) :
    lastNotWsB (dropTrailingWs l) = true := by
  induction l with
  | nil => rfl
  | cons c cs ih =>
    cases hd : dropTrailingWs cs with
    | nil =>
      by_cases hc : isJsWs c = true
      · simp [dropTrailingWs, hd, hc, lastNotWsB]
      · have hc' : isJsWs c = false := by simpa using hc
        simp [dropTrailingWs, hd, hc', lastNotWsB]
    | cons d ds =>
      rw [hd] at ih
      simp only [dropTrailingWs, hd]
      simpa [lastNotWsB] using ih

/-- Lemma: `dropTrailingWs` preserves a non-whitespace head. -/
theorem headNotWsB_dropTrailing {l : List Char} (h : headNotWsB l = true) :
    headNotWsB (dropTrailingWs l) = true := by
  cases l with
  | nil => rfl
  | cons c cs =>
    have hc : isJsWs c = false := by simpa [headNotWsB] using h
    rcases dropTrailingWs_shape c cs with h0 | ⟨t, ht⟩
    · simp [h0, headNotWsB]
    · simp [ht, headNotWsB, hc]

/-- Stripping preserves the space-only and no-adjacent-whitespace invariants
and leaves neither leading nor trailing whitespace. -/
theorem stripWsL_normalized {l : List Char} (h1 : allWsSpaceB l = true)
    (h2 : noAdjWsB l = true) :
    allWsSpaceB (stripWsL l) = true ∧ noAdjWsB (stripWsL l) = true ∧
    headNotWsB (stripWsL l) = true ∧ lastNotWsB (stripWsL l) = true := by
  unfold stripWsL
  exact ⟨allWsSpaceB_dropTrailing _ (all_dropWhile l h1),
    noAdjWsB_dropTrailing _ (noAdjWsB_dropWhile l h2),
    headNotWsB_dropTrailing (headNotWsB_dropWhile l),
    lastNotWsB_dropTrailing _⟩

/-- Without leading whitespace, `dropWhile isJsWs` changes nothing. -/
theorem dropWhile_eq_self_of_headNot {l : List Char} (h : headNotWsB l = true) :
    l.dropWhile isJsWs = l := by
  cases l with
  | nil => rfl
  | cons c cs =>
    have hc : isJsWs c = false := by simpa [headNotWsB] using h
    simp [List.dropWhile_cons, hc]

/-- Without trailing whitespace, `dropTrailingWs` changes nothing. -/
theorem dropTrailing_eq_self_of_lastNot (l : List Char) :
    lastNotWsB l = true → dropTrailingWs l = l := by
  induction l with
  | nil => intro _; rfl
  | cons c cs ih =>
    intro h
    cases cs with
    | nil =>
      have hc : isJsWs c = false := by simpa [lastNotWsB] using h
      simp [dropTrailingWs, hc]
    | cons d ds =>
      have h' : lastNotWsB (d :: ds) = true := by
        simpa [lastNotWsB] using h
      rw [dropTrailingWs, ih h']

/-- Without leading or trailing whitespace, stripping changes nothing. -/
theorem stripWsL_eq_self {l : List Char} (hh : headNotWsB l = true)
    (hl : lastNotWsB l = true) : stripWsL l = l := by
  unfold stripWsL
  rw [dropWhile_eq_self_of_headNot hh, dropTrailing_eq_self_of_lastNot l hl]

/-- Replacing a non-space whitespace character is the identity on lists whose
whitespace is all plain spaces. -/
theorem replChar_eq_self (a : Char) (ha : isJsWs a = true) (hne : (a == ' ') = false)
    (l : List Char) : allWsSpaceB l = true → replChar a ' ' l = l := by
  induction l with
  | nil => intro _; rfl
  | cons c cs ih =>
    intro h
    simp only [allWsSpaceB, List.all_cons, Bool.and_eq_true] at h
    have hch : (c == a) = false := by
      by_cases hca : c = a
      · exfalso
        subst hca
        simp [ha, hne] at h
      · simpa using hca
    show (if c == a then ' ' else c) :: replChar a ' ' cs = c :: cs
    rw [ih h.2, hch]
    simp

/-- The `\s{2,}` collapse is the identity on lists with no two adjacent
whitespace characters. -/
theorem collapseTwo_eq_self (l : List Char) :
    (noAdjWsB l = true → collapseTwoAux Pend.zero l = l) ∧
    (∀ w, isJsWs w = true → noAdjWsB (w :: l) = true →
      collapseTwoAux (Pend.one w) l = w :: l) := by
  induction l with
  | nil => exact ⟨fun _ => rfl, fun w _ _ => rfl⟩
  | cons c cs ih =>
    refine ⟨?_, ?_⟩
    · intro h
      by_cases hc : isJsWs c = true
      · rw [show collapseTwoAux Pend.zero (c :: cs) = collapseTwoAux (Pend.one c) cs from
          by simp [collapseTwoAux, hc]]
        exact ih.2 c hc h
      · have hc' : isJsWs c = false := by simpa using hc
        rw [show collapseTwoAux Pend.zero (c :: cs) = c :: collapseTwoAux Pend.zero cs from
          by simp [collapseTwoAux, hc']]
        rw [ih.1 (noAdjWsB_tail h)]
    · intro w hw h
      have hc : isJsWs c = false := by
        simp only [noAdjWsB, hw, Bool.true_and, Bool.and_eq_true, Bool.not_eq_true'] at h
        exact h.1
      rw [show collapseTwoAux (Pend.one w) (c :: cs) = w :: c :: collapseTwoAux Pend.zero cs from
        by simp [collapseTwoAux, hc]]
      rw [ih.1 (noAdjWsB_tail (noAdjWsB_tail h))]

/-- The `\s+` collapse is the identity on lists whose whitespace is all plain
spaces with no two adjacent. -/
theorem collapseWsAux_eq_self (l : List Char) :
    (allWsSpaceB l = true → noAdjWsB l = true → collapseWsAux false l = l) ∧
    (allWsSpaceB l = true → noAdjWsB l = true → headNotWsB l = true →
      collapseWsAux true l = l) := by
  induction l with
  | nil => exact ⟨fun _ _ => rfl, fun _ _ _ => rfl⟩
  | cons c cs ih =>
    refine ⟨?_, ?_⟩
    · intro hall hadj
      have hallcs : allWsSpaceB cs = true := by
        simp only [allWsSpaceB, List.all_cons, Bool.and_eq_true] at hall
        exact hall.2
      by_cases hc : isJsWs c = true
      · have hsp : c = ' ' := by
          simp only [allWsSpaceB, List.all_cons, Bool.and_eq_true] at hall
          have h1 := hall.1
          rw [hc] at h1
          simpa using h1
        have hhead : headNotWsB cs = true := headNotWs_of_ws_adj hc hadj
        rw [show collapseWsAux false (c :: cs) = ' ' :: collapseWsAux true cs from
          by simp [collapseWsAux, hc]]
        rw [ih.2 hallcs (noAdjWsB_tail hadj) hhead, hsp]
      · have hc' : isJsWs c = false := by simpa using hc
        rw [show collapseWsAux false (c :: cs) = c :: collapseWsAux false cs from
          by simp [collapseWsAux, hc']]
        rw [ih.1 hallcs (noAdjWsB_tail hadj)]
    · intro hall hadj hhead
      have hc : isJsWs c = false := by simpa [headNotWsB] using hhead
      have hallcs : allWsSpaceB cs = true := by
        simp only [allWsSpaceB, List.all_cons, Bool.and_eq_true] at hall
        exact hall.2
      rw [show collapseWsAux true (c :: cs) = c :: collapseWsAux false cs from
        by simp [collapseWsAux, hc]]
      rw [ih.1 hallcs (noAdjWsB_tail hadj)]

/-- The whole replacement chain collapses to: collapse whitespace runs, then
strip the ends — the later passes are identities on the already-normalized
intermediate value. -/
theorem cleanTextL_eq_strip (l : List Char) :
    cleanTextL l = stripWsL (collapseWsAux false l) := by
  unfold cleanTextL
  have a1 := collapseWsAux_allWsSpace l false
  have n1 := (collapseWsAux_noAdj l).1
  obtain ⟨sa, sn, sh, sl⟩ := stripWsL_normalized a1 n1
  rw [replChar_eq_self '\n' (by decide) (by decide) _ sa]
  rw [replChar_eq_self '\t' (by decide) (by decide) _ sa]
  rw [(collapseTwo_eq_self _).1 sn]
  exact stripWsL_eq_self sh sl

/-- Lemma: `cleanTextL` output is fully normalized. -/
theorem cleanTextL_normalized (l : List Char) :
    allWsSpaceB (cleanTextL l) = true ∧ noAdjWsB (cleanTextL l) = true ∧
    headNotWsB (cleanTextL l) = true ∧ lastNotWsB (cleanTextL l) = true := by
  rw [cleanTextL_eq_strip]
  exact stripWsL_normalized (collapseWsAux_allWsSpace l false) ((collapseWsAux_noAdj l).1)

/-- Lemma: `cleanTextL` is idempotent. -/
theorem cleanTextL_idempotent (l : List Char) :
    cleanTextL (cleanTextL l) = cleanTextL l := by
  obtain ⟨ha, hn, hh, hl⟩ := cleanTextL_normalized l
  rw [cleanTextL_eq_strip (cleanTextL l)]
  rw [(collapseWsAux_eq_self _).1 ha hn]
  exact stripWsL_eq_self hh hl

/-- A non-space whitespace character cannot occur in a list whose whitespace is
all plain spaces. -/
theorem not_mem_of_allWsSpace {l : List Char} (h : allWsSpaceB l = true) {a : Char}
    (ha : isJsWs a = true) (hne : (a == ' ') = false) : a ∉ l := by
  intro hm
  have h' : l.all (fun c => !isJsWs c || c == ' ') = true := h
  have hp := List.all_eq_true.mp h' a hm
  simp only [ha, hne] at hp
  simp at hp

/-- C9: `cleanText` is idempotent, and its output never contains a newline, a
tab, two adjacent whitespace characters (in particular two adjacent spaces), or
leading or trailing whitespace. -/
theorem cleanText_idempotent_and_normalized (s : String) :
    cleanText (cleanText s) = cleanText s ∧
    '\n' ∉ (cleanText s).toList ∧
    '\t' ∉ (cleanText s).toList ∧
    noAdjWsB (cleanText s).toList = true ∧
    headNotWsB (cleanText s).toList = true ∧
    lastNotWsB (cleanText s).toList = true := by
  by_cases hs : (s == "") = true
  · have hs' : s = "" := eq_of_beq hs
    subst hs'
    decide
  · have hs' : (s == "") = false := by simpa using hs
    have hred : cleanText s = (cleanTextL s.toList).asString := by
      simp [cleanText, hs']
    have htl : (cleanText s).toList = cleanTextL s.toList := by
      rw [hred]
      exact List.toList_asString _
    obtain ⟨ha, hn, hh, hl⟩ := cleanTextL_normalized s.toList
    refine ⟨?_, ?_, ?_, ?_, ?_, ?_⟩
    · by_cases hr : (cleanText s == "") = true
      · have hre : cleanText s = "" := eq_of_beq hr
        rw [hre]
        decide
      · have hr' : (cleanText s == "") = false := by simpa using hr
        have hstep : cleanText (cleanText s) = (cleanTextL (cleanText s).toList).asString := by
          conv_lhs => rw [cleanText]
          rw [hr']
          simp
        rw [hstep, htl, cleanTextL_idempotent]
        exact hred.symm
    · rw [htl]
      exact not_mem_of_allWsSpace ha (by decide) (by decide)
    · rw [htl]
      exact not_mem_of_allWsSpace ha (by decide) (by decide)
    · rw [htl]
      exact hn
    · rw [htl]
      exact hh
    · rw [htl]
      exact hl

end Scraper
